import Mathlib

/-
Verification of the PhenoAnalyzer four-stage pipeline
(`PhenoAnalysis.py`, class `PhenoAnalyzer`, method `process_pipeline`).

Modelling conventions:
* numbers are rationals (`ℚ`); a pandas `NaN` / empty cell is `none : Option ℚ`;
* real-valued statistics (square roots, logarithms) live in `ℝ` behind the
  computable rational core;
* a pandas `DataFrame` restricted to the plot columns is a `List (List (Option ℚ))`
  (rows of cells, column `"i-"` at position `i - 1`);
* the Python names are kept wherever Lean allows.
-/

namespace Pheno

/-! ### Decimal digits

`process_pipeline` builds the regex pattern `rf'\b{i}-'` and the column label
`f'{i}-'` from the decimal representation of the candidate id `i`.  We model the
f-string rendering of a nonnegative integer by `decDigits`. -/

/-- The decimal digit characters. -/
def digitChar (d : ℕ) : Char :=
  match d with
  | 0 => '0' | 1 => '1' | 2 => '2' | 3 => '3' | 4 => '4'
  | 5 => '5' | 6 => '6' | 7 => '7' | 8 => '8' | _ => '9'

/-- Fuel-driven decimal rendering (the fuel makes kernel evaluation possible). -/
def decDigitsCore : ℕ → ℕ → List Char
  | 0, _ => []
  | fuel + 1, n =>
    if n < 10 then [digitChar n]
    else decDigitsCore fuel (n / 10) ++ [digitChar (n % 10)]

/-- Decimal digit list of `n`, as produced by Python `f'{n}'` for `n ≥ 0`. -/
def decDigits (n : ℕ) : List Char := decDigitsCore (n + 1) n

/-- Numeric value of a digit list (left fold), used to invert `decDigits`. -/
def decVal (ds : List Char) : ℕ := ds.foldl (fun a c => 10 * a + (c.toNat - 48)) 0

/-! ### Identifier Matcher

Line 64-65 of `PhenoAnalysis.py`:
`pattern = rf'\b{i}-'` / `re.search(pattern, image_name)`.
A `\b` before a digit requires the previous character to be a regex non-word
character (word characters are ASCII letters, digits and the underscore) or the
start of the string. -/

/-- Python regex word character (`\w`), ASCII fragment. -/
def isWordChar (c : Char) : Bool := c.isAlpha || c.isDigit || c == '_'

/-- Is a position whose preceding character is `prev` (`none` at the start of
the string) a valid `\b` boundary before a word character? -/
def boundaryOk : Option Char → Bool
  | none => true
  | some c => !(isWordChar c)

/-- Scan of `re.search` for the anchored pattern `\b`+`pat` where `pat` starts
with a word character: try every position, remembering the previous character. -/
def searchFrom (pat : List Char) : Option Char → List Char → Bool
  | prev, [] => boundaryOk prev && pat.isEmpty
  | prev, c :: rest =>
    (boundaryOk prev && pat.isPrefixOf (c :: rest)) || searchFrom pat (some c) rest

/-- The Identifier Matcher: `re.search(rf'\b{i}-', image_name)` succeeds. -/
def matcher (imageName : String) (i : ℕ) : Bool :=
  searchFrom (decDigits i ++ ['-']) none imageName.data

/-! ### Plot Reshaper (stage 1, lines 52-67)

For each retained row, candidates `1 .. range_max` are tried in increasing
order; the first match receives the row's area and the scan stops (`break`). -/

/-- The candidate loop `for i in range(1, range_max + 1): ... break`, started at
candidate `i` with `fuel` candidates left. -/
def firstMatchFrom (imageName : String) : ℕ → ℕ → Option ℕ
  | _, 0 => none
  | i, fuel + 1 => if matcher imageName i then some i else firstMatchFrom imageName (i + 1) fuel

/-- First matching candidate in `1 .. rangeMax`, if any. -/
def firstMatch (imageName : String) (rangeMax : ℕ) : Option ℕ :=
  firstMatchFrom imageName 1 rangeMax

/-- The plot cells of one reshaped row: position `k` models column `f'{k+1}-'`;
only the first matching candidate's column receives the area. -/
def reshapeCells (imageName : String) (area : ℚ) (rangeMax : ℕ) : List (Option ℚ) :=
  (List.range' 1 rangeMax).map fun i =>
    if firstMatch imageName rangeMax = some i then some area else none

/-- One raw input row (`Image Name`, `Area`); `Mask Name` is dropped unread. -/
structure InRow where
  imageName : String
  area : ℚ
deriving DecidableEq

/-- One row of artifact `1_reshaped_data`: the original columns plus the plot
cells. -/
structure WideRow where
  imageName : String
  area : ℚ
  cells : List (Option ℚ)
deriving DecidableEq

/-- Stage 1: drop rows with `Area == 0` (line 45), then reshape each row. -/
def stage1 (rows : List InRow) (rangeMax : ℕ) : List WideRow :=
  (rows.filter fun r => r.area ≠ 0).map fun r =>
    ⟨r.imageName, r.area, reshapeCells r.imageName r.area rangeMax⟩

/-! ### Column Compactor (stage 2, lines 80-95)

The frame is re-read (fresh index `0 .. n-1`), `Image Name`/`Area` are dropped,
`dropna(how='all')` removes the all-empty rows but keeps the surviving index
labels, and then each column is reassigned
`df_cleaned[column] = df_cleaned[column].dropna().reset_index(drop=True)`.
The right-hand side carries the positional index `0 .. k-1`, and the assignment
aligns it with the frame's surviving labels: the cell at label `l` becomes the
`l`-th compacted value (or empty when `l` is out of range). -/

/-- Index labels surviving `dropna(how='all')` over the plot columns. -/
def keptLabels (t : List (List (Option ℚ))) : List ℕ :=
  (List.range t.length).filter fun l => ((t.get? l).getD []).any Option.isSome

/-- Cell of column `c` at label `l` of the wide plot table. -/
def colAt (t : List (List (Option ℚ))) (c l : ℕ) : Option ℚ :=
  ((t.get? l).getD []).getD c none

/-- `df_cleaned[column].dropna()` values (label order) of column `c`. -/
def compactCol (t : List (List (Option ℚ))) (c : ℕ) : List ℚ :=
  (keptLabels t).filterMap fun l => colAt t c l

/-- Stage 2: the cleaned table as written to `2_cleaned_data` — one row per
surviving label `l`, whose cell in column `c` is the `l`-th value of the
compacted column (pandas index alignment). -/
def stage2 (t : List (List (Option ℚ))) (rangeMax : ℕ) : List (List (Option ℚ)) :=
  (keptLabels t).map fun l => (List.range rangeMax).map fun c => (compactCol t c).get? l

/-- Stage 3 reads column `c` of the cleaned table with `dropna()`: the
PlotSeries actually consumed by the Statistics Engine. -/
def colSeries (cleaned : List (List (Option ℚ))) (c : ℕ) : List ℚ :=
  cleaned.filterMap fun row => row.getD c none

/-! ### Statistics Engine (stage 3, lines 104-152)

`series.quantile` uses pandas' linear interpolation; `filtered.mean()` is the
arithmetic mean; `filtered.std()` is the sample standard deviation (`ddof=1`,
`NaN` when fewer than two values); `scipy.stats.entropy` of the normalized
value counts is the natural-log Shannon entropy. -/

/-- Insertion of a value into a sorted rational list. -/
def insertSorted (x : ℚ) : List ℚ → List ℚ
  | [] => [x]
  | y :: ys => if x ≤ y then x :: y :: ys else y :: insertSorted x ys

/-- Ascending sort, as pandas does internally for `Series.quantile`. -/
def sortQ (l : List ℚ) : List ℚ := l.foldr insertSorted []

/-- `series.quantile(q)` with the default linear interpolation: value at
position `q * (n - 1)` of the sorted data, interpolating between neighbours. -/
def quantileLin (s : List ℚ) (q : ℚ) : ℚ :=
  let srt := sortQ s
  let h : ℚ := q * ((s.length : ℚ) - 1)
  let lo := (Int.floor h).toNat
  let hi := (Int.ceil h).toNat
  srt.getD lo 0 + (h - (lo : ℚ)) * (srt.getD hi 0 - srt.getD lo 0)

/-- Lines 115-119: keep the values inside `[Q1 - 1.5·IQR, Q3 + 1.5·IQR]`
(boolean-mask filtering preserves the original order). -/
def iqrFilter (s : List ℚ) : List ℚ :=
  let q1 := quantileLin s (1 / 4)
  let q3 := quantileLin s (3 / 4)
  let iqr := q3 - q1
  s.filter fun x => decide (q1 - 3 / 2 * iqr ≤ x) && decide (x ≤ q3 + 3 / 2 * iqr)

/-- The `enable_iqr` switch (lines 114-122). -/
def retained (enableIqr : Bool) (s : List ℚ) : List ℚ :=
  if enableIqr then iqrFilter s else s

/-- `filtered.mean()`. -/
def seriesMean (s : List ℚ) : ℚ := s.sum / s.length

/-- `filtered.std()` squared: the sample variance with the `n - 1` divisor;
`none` models the `NaN` pandas returns for fewer than two values. -/
def seriesSVar (s : List ℚ) : Option ℚ :=
  if s.length < 2 then none
  else some ((s.map fun x => (x - seriesMean s) ^ 2).sum / ((s.length : ℚ) - 1))

/-- `filtered.value_counts(normalize=True)`: the relative frequency of each
distinct value (the order is irrelevant — only the entropy sum uses it). -/
def seriesFreqs (s : List ℚ) : List ℚ :=
  s.dedup.map fun v => ((s.count v : ℚ) / (s.length : ℚ))

/-- `filtered.std()` itself: the square root of the sample variance. -/
noncomputable def seriesStd (s : List ℚ) : Option ℝ :=
  (seriesSVar s).map fun v => Real.sqrt (v : ℝ)

/-- Line 132: `cv_val = (std_val / mean_val * 100) if mean_val != 0 else np.nan`.
A `NaN` standard deviation propagates into the CV. -/
noncomputable def seriesCv (s : List ℚ) : Option ℝ :=
  if seriesMean s = 0 then none
  else (seriesStd s).map fun d => d / ((seriesMean s : ℚ) : ℝ) * 100

/-- Lines 135-136: natural-log Shannon entropy of the value frequencies. -/
noncomputable def seriesEnt (s : List ℚ) : ℝ :=
  -(((seriesFreqs s).map fun p => (p : ℝ) * Real.log (p : ℝ)).sum)

/-- One record of artifact `3_statistical_analysis` (lines 143-150). -/
structure StatsRow where
  plotId : String
  count : ℕ
  mean : ℚ
  std : Option ℝ
  cv : Option ℝ
  ent : ℝ

/-- The record appended for one plot whose retained series is `s`. -/
noncomputable def statsRowOf (pid : String) (s : List ℚ) : StatsRow :=
  ⟨pid, s.length, seriesMean s, seriesStd s, seriesCv s, seriesEnt s⟩

/-- The column label `f'{i}-'` (also the `Plot ID` cell of the record). -/
def plotName (i : ℕ) : String := ⟨decDigits i ++ ['-']⟩

/-- Stage 3: walk the plot columns in ascending order; skip a plot when its
series is empty (line 110) or empty after filtering (line 125). -/
noncomputable def stage3 (enableIqr : Bool) (cleaned : List (List (Option ℚ)))
    (rangeMax : ℕ) : List StatsRow :=
  (List.range' 1 rangeMax).filterMap fun i =>
    let s := colSeries cleaned (i - 1)
    if s = [] then none
    else
      let f := retained enableIqr s
      if f = [] then none else some (statsRowOf (plotName i) f)

/-! ### Normalizer (stage 4, lines 162-179)

For each of the numeric target columns `Std Dev`, `CV (%)`, `Entropy`:
`min`/`max` skip `NaN`; when they differ, min-max rescale (a `NaN` cell stays
`NaN`); when they agree, the whole column — `NaN` cells included — is assigned
the constant `0.0`.  A column with no numeric value has `min = max = NaN` and
`NaN != NaN` holds, so the rescale branch runs and every cell stays `NaN`:
the column is unchanged. -/

/-- Min-max normalization of one numeric column with `NaN` cells as `none`. -/
def normalizeColumn {α : Type} [LinearOrderedField α] (col : List (Option α)) :
    List (Option α) :=
  match col.filterMap id with
  | [] => col
  | v :: vs =>
    let mn := vs.foldl min v
    let mx := vs.foldl max v
    if mn = mx then col.map fun _ => some 0
    else col.map (Option.map fun x => (x - mn) / (mx - mn))

/-- Stage 4: normalize the three target columns, leave `Plot ID`, `Count` and
`Mean` untouched, keep every row.  The `Entropy` column never holds `NaN`, so
its normalized cells are always present (the `getD` fallback never fires). -/
noncomputable def stage4 (rows : List StatsRow) : List StatsRow :=
  let nstd := normalizeColumn (rows.map StatsRow.std)
  let ncv := normalizeColumn (rows.map StatsRow.cv)
  let nent := normalizeColumn (rows.map fun r => some r.ent)
  rows.enum.map fun p =>
    { p.2 with
      std := (nstd.get? p.1).getD none
      cv := (ncv.get? p.1).getD none
      ent := ((nent.get? p.1).getD none).getD p.2.ent }

/-! ### The pipeline driver (`process_pipeline`, lines 16-187)

The whole body runs inside one `try`.  Every `self.log(...)` call forwards to
the caller's callback and any exception the callback raises escapes into the
`except` block — whose own `self.log` call then re-raises.  The callback is
modelled as a `Bool`-valued function on the (abstracted) log messages, `false`
meaning the callback raises on that message.  Reading the input workbook is
assumed to succeed (the input is handed to the model already parsed). -/

/-- The log messages of `process_pipeline`, abstracted from their f-strings. -/
inductive LogMsg
  | step1                   -- line 30
  | errorArea               -- line 47
  | matching (rangeMax : ℕ) -- line 50
  | step2                   -- line 77
  | step3 (enableIqr : Bool) -- lines 101-102
  | step4                   -- line 160
  | success                 -- line 181
  | errorExc                -- line 186, inside the except block
deriving DecidableEq

/-- How a `process_pipeline` call ends: `True`, `False`, or an escaped
exception. -/
inductive Outcome
  | ok | failed | raised
deriving DecidableEq

/-- The observable result: the return disposition and the artifacts written to
`output_dir` so far (`none` = file absent). -/
structure PipelineOut where
  outcome : Outcome
  art1 : Option (List WideRow)
  art2 : Option (List (List (Option ℚ)))
  art3 : Option (List StatsRow)
  art4 : Option (List StatsRow)

/-- The parsed input workbook: whether the mandatory `Area` column exists, and
the rows (`Mask Name` already irrelevant). -/
structure Input where
  hasArea : Bool
  rows : List InRow

/-- The `except` block (lines 184-187): log the traceback and return `False`;
if that log call itself raises, the exception escapes. -/
def excHandler (c : LogMsg → Bool) (a1 : Option (List WideRow))
    (a2 : Option (List (List (Option ℚ)))) (a3 a4 : Option (List StatsRow)) :
    PipelineOut :=
  if c .errorExc then ⟨.failed, a1, a2, a3, a4⟩ else ⟨.raised, a1, a2, a3, a4⟩

/-- `process_pipeline(input_mask_file, output_dir, range_max, enable_iqr)`
under a log callback `c`. -/
noncomputable def runPipeline (c : LogMsg → Bool) (inp : Input) (rangeMax : ℕ)
    (enableIqr : Bool) : PipelineOut :=
  if !(c .step1) then excHandler c none none none none
  else if !inp.hasArea then
    -- line 47-48: log the missing-column error, return False
    if !(c .errorArea) then excHandler c none none none none
    else ⟨.failed, none, none, none, none⟩
  else if !(c (.matching rangeMax)) then excHandler c none none none none
  else
    let t1 := stage1 inp.rows rangeMax
    if !(c .step2) then excHandler c (some t1) none none none
    else
      let t2 := stage2 (t1.map WideRow.cells) rangeMax
      if !(c (.step3 enableIqr)) then excHandler c (some t1) (some t2) none none
      else
        let t3 := stage3 enableIqr t2 rangeMax
        if !(c .step4) then excHandler c (some t1) (some t2) (some t3) none
        else
          let t4 := stage4 t3
          if !(c .success) then excHandler c (some t1) (some t2) (some t3) (some t4)
          else ⟨.ok, some t1, some t2, some t3, some t4⟩

/-- The pipeline under the default (never-raising) logger, e.g. `print`. -/
noncomputable def processPipeline (inp : Input) (rangeMax : ℕ) (enableIqr : Bool) :
    PipelineOut :=
  runPipeline (fun _ => true) inp rangeMax enableIqr

/-! ## Helper lemmas -/

theorem decVal_append_digit (ds : List Char) (c : Char) :
    decVal (ds ++ [c]) = 10 * decVal ds + (c.toNat - 48) := by
  simp [decVal, List.foldl_append]

theorem digitChar_toNat {d : ℕ} (h : d < 10) : (digitChar d).toNat - 48 = d := by
  interval_cases d <;> rfl

theorem decVal_decDigitsCore : ∀ fuel n, n < fuel → decVal (decDigitsCore fuel n) = n := by
  intro fuel
  induction fuel with
  | zero => intro n h; omega
  | succ fuel ih =>
    intro n h
    rw [decDigitsCore]
    by_cases h10 : n < 10
    · rw [if_pos h10]
      show 10 * 0 + ((digitChar n).toNat - 48) = n
      rw [digitChar_toNat h10]
      omega
    · rw [if_neg h10, decVal_append_digit, digitChar_toNat (Nat.mod_lt _ (by omega))]
      have hdiv : n / 10 < n := Nat.div_lt_self (by omega) (by omega)
      rw [ih (n / 10) (by omega)]
      omega

theorem decVal_decDigits (n : ℕ) : decVal (decDigits n) = n :=
  decVal_decDigitsCore (n + 1) n (Nat.lt_succ_self n)

theorem decDigits_injective : Function.Injective decDigits := by
  intro m n h
  have hm := decVal_decDigits m
  rw [h, decVal_decDigits] at hm
  exact hm.symm

theorem plotName_injective : Function.Injective plotName := by
  intro m n h
  have hd : decDigits m ++ ['-'] = decDigits n ++ ['-'] := congrArg String.data h
  exact decDigits_injective (List.append_cancel_right hd)

theorem retained_nil (b : Bool) : retained b [] = [] := by cases b <;> rfl

theorem firstMatchFrom_eq_some {name : String} :
    ∀ fuel i j, firstMatchFrom name i fuel = some j →
      matcher name j = true ∧ i ≤ j ∧ j < i + fuel ∧
      ∀ k, i ≤ k → k < j → matcher name k = false := by
  intro fuel
  induction fuel with
  | zero => intro i j h; simp [firstMatchFrom] at h
  | succ fuel ih =>
    intro i j h
    rw [firstMatchFrom] at h
    by_cases hm : matcher name i
    · rw [if_pos hm] at h
      injection h with h
      subst h
      exact ⟨hm, le_refl _, by omega, fun k hk1 hk2 => absurd hk2 (by omega)⟩
    · rw [if_neg hm] at h
      obtain ⟨h1, h2, h3, h4⟩ := ih (i + 1) j h
      refine ⟨h1, by omega, by omega, fun k hk1 hk2 => ?_⟩
      rcases Nat.eq_or_lt_of_le hk1 with heq | hk
      · exact heq ▸ Bool.eq_false_iff.mpr hm
      · exact h4 k hk hk2

theorem foldl_min_le_init {α : Type} [LinearOrder α] :
    ∀ (vs : List α) (v : α), vs.foldl min v ≤ v := by
  intro vs
  induction vs with
  | nil => intro v; exact le_refl v
  | cons y ys ih => intro v; exact le_trans (ih (min v y)) (min_le_left v y)

theorem foldl_min_le_mem {α : Type} [LinearOrder α] :
    ∀ (vs : List α) (v x : α), x ∈ vs → vs.foldl min v ≤ x := by
  intro vs
  induction vs with
  | nil => intro v x hx; cases hx
  | cons y ys ih =>
    intro v x hx
    rcases List.mem_cons.mp hx with rfl | hx'
    · exact le_trans (foldl_min_le_init ys (min v x)) (min_le_right v x)
    · exact ih (min v y) x hx'

theorem foldl_min_mem {α : Type} [LinearOrder α] :
    ∀ (vs : List α) (v : α), vs.foldl min v ∈ v :: vs := by
  intro vs
  induction vs with
  | nil => intro v; exact List.mem_singleton.mpr rfl
  | cons y ys ih =>
    intro v
    have h := ih (min v y)
    rcases List.mem_cons.mp h with heq | hmem
    · rcases min_choice v y with hv | hy
      · exact List.mem_cons.mpr (Or.inl (heq.trans hv))
      · exact List.mem_cons.mpr (Or.inr (List.mem_cons.mpr (Or.inl (heq.trans hy))))
    · exact List.mem_cons.mpr (Or.inr (List.mem_cons.mpr (Or.inr hmem)))

theorem le_foldl_max_init {α : Type} [LinearOrder α] :
    ∀ (vs : List α) (v : α), v ≤ vs.foldl max v := by
  intro vs
  induction vs with
  | nil => intro v; exact le_refl v
  | cons y ys ih => intro v; exact le_trans (le_max_left v y) (ih (max v y))

theorem le_foldl_max_mem {α : Type} [LinearOrder α] :
    ∀ (vs : List α) (v x : α), x ∈ vs → x ≤ vs.foldl max v := by
  intro vs
  induction vs with
  | nil => intro v x hx; cases hx
  | cons y ys ih =>
    intro v x hx
    rcases List.mem_cons.mp hx with rfl | hx'
    · exact le_trans (le_max_right v x) (le_foldl_max_init ys (max v x))
    · exact ih (max v y) x hx'

theorem foldl_max_mem {α : Type} [LinearOrder α] :
    ∀ (vs : List α) (v : α), vs.foldl max v ∈ v :: vs := by
  intro vs
  induction vs with
  | nil => intro v; exact List.mem_singleton.mpr rfl
  | cons y ys ih =>
    intro v
    have h := ih (max v y)
    rcases List.mem_cons.mp h with heq | hmem
    · rcases max_choice v y with hv | hy
      · exact List.mem_cons.mpr (Or.inl (heq.trans hv))
      · exact List.mem_cons.mpr (Or.inr (List.mem_cons.mpr (Or.inl (heq.trans hy))))
    · exact List.mem_cons.mpr (Or.inr (List.mem_cons.mpr (Or.inr hmem)))

/-! ## Claims -/

/-- C1, counterexample: the claim asserts that candidate `101` matches
`"img_101-sample.jpg"`; in the code `re` treats the underscore as a word
character, so `\b` finds no boundary before `101-` and the match fails. -/
theorem C1_boundary_counterexample : matcher "img_101-sample.jpg" 101 = false := by
  decide

/-- C1 (amended): the Identifier Matcher accepts a left boundary only at a
non-word character (word characters are letters, digits and the underscore) or
the start of the string; hence for `"img_101-sample.jpg"` neither candidate `1`
nor candidate `101` matches, while in `"img 101-sample.jpg"` (space boundary)
candidate `101` matches and candidate `1` does not; and reshaping the single
measurement `("plot_3-leftcam.jpg", 7.0)` with `range_max = 10` leaves every
PlotID column unset. -/
theorem C1_boundary_amended :
    matcher "img_101-sample.jpg" 1 = false
  ∧ matcher "img_101-sample.jpg" 101 = false
  ∧ matcher "img 101-sample.jpg" 101 = true
  ∧ matcher "img 101-sample.jpg" 1 = false
  ∧ reshapeCells "plot_3-leftcam.jpg" 7 10 = List.replicate 10 none := by
  decide

/-- C2: the Column Compactor is claimed to turn the column
`[5, unset, 3, unset, 8]` into the PlotSeries `[5, 3, 8]` for every wide table
containing it.  When the unset rows are empty across the whole table,
`dropna(how='all')` leaves the index gaps `[0, 2, 4]`, and the reassignment
`df_cleaned[col] = df_cleaned[col].dropna().reset_index(drop=True)` aligns the
repositioned values `[5, 3, 8]` with those labels: label `2` receives `8`,
label `4` nothing.  The Statistics Engine then reads the series `[5, 8]` — the
value `3` is lost, contradicting the compaction the code's own comments
describe. -/
theorem C2_compactor_bug :
    (([[some 5], [none], [some 3], [none], [some 8]] : List (List (Option ℚ))).map
        fun row => row.getD 0 none) = [some 5, none, some 3, none, some 8]
  ∧ compactCol [[some 5], [none], [some 3], [none], [some 8]] 0 = [5, 3, 8]
  ∧ colSeries (stage2 [[some 5], [none], [some 3], [none], [some 8]] 1) 0 = [5, 8]
  ∧ colSeries (stage2 [[some 5], [none], [some 3], [none], [some 8]] 1) 0 ≠ [5, 3, 8] := by
  refine ⟨by decide, by decide, by decide, by decide⟩

theorem reshapeCells_get?_some {imageName : String} {area : ℚ} {rangeMax k : ℕ} {a : ℚ}
    (h : (reshapeCells imageName area rangeMax).get? k = some (some a)) :
    k < rangeMax ∧ firstMatch imageName rangeMax = some (1 + k) ∧ a = area := by
  unfold reshapeCells at h
  rw [List.get?_map] at h
  by_cases hk : k < rangeMax
  · rw [List.get?_range' 1 1 hk] at h
    simp only [Option.map_some', one_mul] at h
    by_cases hfm : firstMatch imageName rangeMax = some (1 + k)
    · rw [if_pos hfm] at h
      injection h with h
      injection h with h
      exact ⟨hk, hfm, h.symm⟩
    · rw [if_neg hfm] at h
      injection h with h
      exact Option.noConfusion h
  · exfalso
    have hnone : (List.range' 1 rangeMax).get? k = none := by
      rw [List.get?_eq_none]
      simpa using Nat.le_of_not_lt hk
    rw [hnone] at h
    exact Option.noConfusion h

/-- C5: in every reshaped row at most one PlotID column is populated, and a
populated column `k` (plot id `k + 1`) is the lowest candidate in
`[1, range_max]` accepted by the Identifier Matcher — candidates are tried in
increasing order and scanning stops at the first match. -/
theorem C5_reshaper_lowest_candidate (imageName : String) (area : ℚ) (rangeMax k : ℕ)
    (a : ℚ) (hcell : (reshapeCells imageName area rangeMax).get? k = some (some a)) :
    a = area
  ∧ k + 1 ≤ rangeMax
  ∧ matcher imageName (k + 1) = true
  ∧ (∀ j, 1 ≤ j → j < k + 1 → matcher imageName j = false)
  ∧ ∀ k2 b, (reshapeCells imageName area rangeMax).get? k2 = some (some b) → k2 = k := by
  obtain ⟨hk, hfm, ha⟩ := reshapeCells_get?_some hcell
  obtain ⟨hmatch, h1le, hlt, hmin⟩ := firstMatchFrom_eq_some rangeMax 1 (1 + k) hfm
  refine ⟨ha, by omega, by rw [Nat.add_comm] at hmatch; exact hmatch,
    fun j hj1 hjlt => hmin j hj1 (by omega), fun k2 b h2 => ?_⟩
  obtain ⟨_, hfm2, _⟩ := reshapeCells_get?_some h2
  rw [hfm] at hfm2
  injection hfm2 with hfm2
  omega

/-- C5 witness: reshaping `("2-a", 7)` with `range_max = 2` populates exactly
the column of plot `2`. -/
theorem C5_reshaper_lowest_candidate_witness :
    ((reshapeCells "2-a" 7 2).get? 1 = some (some (7 : ℚ)))
  ∧ ((7 : ℚ) = 7
      ∧ 1 + 1 ≤ 2
      ∧ matcher "2-a" (1 + 1) = true
      ∧ (∀ j, 1 ≤ j → j < 1 + 1 → matcher "2-a" j = false)
      ∧ ∀ k2 b, (reshapeCells "2-a" 7 2).get? k2 = some (some b) → k2 = 1) :=
  ⟨by decide, C5_reshaper_lowest_candidate "2-a" 7 2 1 7 (by decide)⟩

/-- C3: on every non-empty retained PlotSeries the Statistics Engine reports
`count` = number of retained values, `mean` = arithmetic mean, `std_dev` = the
sample standard deviation with the `n - 1` divisor (`NaN`, i.e. `none`, when
`count < 2`), and `cv_percent` = `std_dev / mean * 100` when the mean is
nonzero (`NaN` when the mean is zero, and `NaN` when `std_dev` is `NaN`). -/
theorem C3_stats_formulas (pid : String) (s : List ℚ) (hne : s ≠ []) :
    (statsRowOf pid s).count = s.length
  ∧ (statsRowOf pid s).mean = s.sum / (s.length : ℚ)
  ∧ (s.length < 2 → (statsRowOf pid s).std = none)
  ∧ (2 ≤ s.length → ∃ d : ℝ, (statsRowOf pid s).std = some d ∧ 0 ≤ d ∧
      d ^ 2 = (((s.map fun x => (x - s.sum / (s.length : ℚ)) ^ 2).sum /
        ((s.length : ℚ) - 1) : ℚ) : ℝ))
  ∧ (s.sum / (s.length : ℚ) = 0 → (statsRowOf pid s).cv = none)
  ∧ (s.sum / (s.length : ℚ) ≠ 0 → 2 ≤ s.length →
      ∃ d : ℝ, (statsRowOf pid s).std = some d ∧
        (statsRowOf pid s).cv = some (d / ((s.sum / (s.length : ℚ) : ℚ) : ℝ) * 100))
  ∧ (s.sum / (s.length : ℚ) ≠ 0 → s.length < 2 → (statsRowOf pid s).cv = none) := by
  have hVdef : ∀ h2 : ¬ s.length < 2, seriesSVar s =
      some ((s.map fun x => (x - s.sum / (s.length : ℚ)) ^ 2).sum / ((s.length : ℚ) - 1)) := by
    intro h2
    unfold seriesSVar
    rw [if_neg h2]
    rfl
  refine ⟨rfl, rfl, ?_, ?_, ?_, ?_, ?_⟩
  · intro h
    show seriesStd s = none
    unfold seriesStd seriesSVar
    rw [if_pos h]
    rfl
  · intro h2
    have hV := hVdef (by omega)
    refine ⟨Real.sqrt (((s.map fun x => (x - s.sum / (s.length : ℚ)) ^ 2).sum /
      ((s.length : ℚ) - 1) : ℚ) : ℝ), ?_, Real.sqrt_nonneg _, ?_⟩
    · show seriesStd s = _
      unfold seriesStd
      rw [hV]
      rfl
    · apply Real.sq_sqrt
      have hnum : (0 : ℚ) ≤ (s.map fun x => (x - s.sum / (s.length : ℚ)) ^ 2).sum :=
        List.sum_nonneg (by
          intro x hx
          obtain ⟨y, _, rfl⟩ := List.mem_map.mp hx
          exact sq_nonneg _)

      have hden : (0 : ℚ) ≤ (s.length : ℚ) - 1 := by
        have : (2 : ℚ) ≤ (s.length : ℚ) := by exact_mod_cast h2
        linarith
      have : (0 : ℚ) ≤ (s.map fun x => (x - s.sum / (s.length : ℚ)) ^ 2).sum /
          ((s.length : ℚ) - 1) := div_nonneg hnum hden
      exact_mod_cast this
  · intro h
    have h' : seriesMean s = 0 := h
    show seriesCv s = none
    unfold seriesCv
    rw [if_pos h']
  · intro hm h2
    have hm' : seriesMean s ≠ 0 := hm
    have hV := hVdef (by omega)
    have hstd : seriesStd s = some (Real.sqrt (((s.map fun x =>
        (x - s.sum / (s.length : ℚ)) ^ 2).sum / ((s.length : ℚ) - 1) : ℚ) : ℝ)) := by
      unfold seriesStd
      rw [hV]
      rfl
    refine ⟨_, hstd, ?_⟩
    show seriesCv s = _
    unfold seriesCv
    rw [if_neg hm', hstd]
    rfl
  · intro hm h2
    have hm' : seriesMean s ≠ 0 := hm
    have hstd : seriesStd s = none := by
      unfold seriesStd seriesSVar
      rw [if_pos h2]
      rfl
    show seriesCv s = none
    unfold seriesCv
    rw [if_neg hm', hstd]
    rfl

/-- C3 witness: the formulas instantiated on the concrete retained series
`[1, 2]`. -/
theorem C3_stats_formulas_witness :
    (([1, 2] : List ℚ) ≠ [])
  ∧ ((statsRowOf "1-" [1, 2]).count = ([1, 2] : List ℚ).length
      ∧ (statsRowOf "1-" [1, 2]).mean = ([1, 2] : List ℚ).sum / (([1, 2] : List ℚ).length : ℚ)
      ∧ (([1, 2] : List ℚ).length < 2 → (statsRowOf "1-" [1, 2]).std = none)
      ∧ (2 ≤ ([1, 2] : List ℚ).length → ∃ d : ℝ, (statsRowOf "1-" [1, 2]).std = some d ∧ 0 ≤ d ∧
          d ^ 2 = (((([1, 2] : List ℚ).map fun x =>
            (x - ([1, 2] : List ℚ).sum / (([1, 2] : List ℚ).length : ℚ)) ^ 2).sum /
            ((([1, 2] : List ℚ).length : ℚ) - 1) : ℚ) : ℝ))
      ∧ (([1, 2] : List ℚ).sum / (([1, 2] : List ℚ).length : ℚ) = 0 →
          (statsRowOf "1-" [1, 2]).cv = none)
      ∧ (([1, 2] : List ℚ).sum / (([1, 2] : List ℚ).length : ℚ) ≠ 0 →
          2 ≤ ([1, 2] : List ℚ).length →
          ∃ d : ℝ, (statsRowOf "1-" [1, 2]).std = some d ∧
            (statsRowOf "1-" [1, 2]).cv = some (d / ((([1, 2] : List ℚ).sum /
              (([1, 2] : List ℚ).length : ℚ) : ℚ) : ℝ) * 100))
      ∧ (([1, 2] : List ℚ).sum / (([1, 2] : List ℚ).length : ℚ) ≠ 0 →
          ([1, 2] : List ℚ).length < 2 → (statsRowOf "1-" [1, 2]).cv = none)) :=
  ⟨by decide, C3_stats_formulas "1-" [1, 2] (by decide)⟩

/-- C4, counterexample: on the PlotSeries `[10, 10, 10]` (outlier filter off,
so the series is retained unchanged) the mean is `10 ≠ 0` and the standard
deviation is `0`, so line 132 computes `cv = 0 / 10 * 100 = 0.0` — a number,
not the `nan` the claim asserts. -/
theorem C4_cv_counterexample :
    retained false [10, 10, 10] = [10, 10, 10]
  ∧ (statsRowOf "1-" [10, 10, 10]).cv = some 0
  ∧ (statsRowOf "1-" [10, 10, 10]).cv ≠ none := by
  have hm : seriesMean [10, 10, 10] = (10 : ℚ) := by norm_num [seriesMean]
  have hv : seriesSVar [10, 10, 10] = some 0 := by norm_num [seriesSVar, hm]
  have hstd : seriesStd [10, 10, 10] = some 0 := by
    unfold seriesStd
    rw [hv]
    simp
  have hcv : seriesCv [10, 10, 10] = some 0 := by
    unfold seriesCv
    rw [if_neg (by rw [hm]; norm_num), hstd]
    simp [hm]
  exact ⟨rfl, hcv, fun h => Option.noConfusion (hcv.symm.trans h)⟩

/-- C4 (amended): with the outlier filter off, the Statistics Engine on
`[10, 10, 10]` produces `count = 3`, `mean = 10`, `std_dev = 0`,
`cv_percent = 0` (the zero-std value passes through the nonzero-mean branch as
`0 / 10 * 100`), and `entropy = 0`. -/
theorem C4_stats_amended :
    retained false [10, 10, 10] = [10, 10, 10]
  ∧ (statsRowOf "1-" [10, 10, 10]).count = 3
  ∧ (statsRowOf "1-" [10, 10, 10]).mean = 10
  ∧ (statsRowOf "1-" [10, 10, 10]).std = some 0
  ∧ (statsRowOf "1-" [10, 10, 10]).cv = some 0
  ∧ (statsRowOf "1-" [10, 10, 10]).ent = 0 := by
  have hm : seriesMean [10, 10, 10] = (10 : ℚ) := by norm_num [seriesMean]
  have hv : seriesSVar [10, 10, 10] = some 0 := by norm_num [seriesSVar, hm]
  have hstd : seriesStd [10, 10, 10] = some 0 := by
    unfold seriesStd
    rw [hv]
    simp
  have hcv : seriesCv [10, 10, 10] = some 0 := by
    unfold seriesCv
    rw [if_neg (by rw [hm]; norm_num), hstd]
    simp [hm]
  have hd : ([10, 10, 10] : List ℚ).dedup = [10] := by decide
  have hc : List.count (10 : ℚ) [10, 10, 10] = 3 := by decide
  have hf : seriesFreqs [10, 10, 10] = [1] := by
    simp [seriesFreqs, hd, hc]
  have hent : seriesEnt [10, 10, 10] = 0 := by
    unfold seriesEnt
    rw [hf]
    simp
  exact ⟨rfl, rfl, hm, hstd, hcv, hent⟩

/-- C6: a plot whose PlotSeries is empty after the configured filtering policy
is applied produces no PlotStatistics record at all: its plot id is absent from
the stage-3 output (absence of a row, not a zero- or nan-filled row), and the
stage simply continues with the next column. -/
theorem C6_empty_plot_no_record (enableIqr : Bool) (cleaned : List (List (Option ℚ)))
    (rangeMax i : ℕ)
    (hret : retained enableIqr (colSeries cleaned (i - 1)) = []) :
    ∀ r ∈ stage3 enableIqr cleaned rangeMax, r.plotId ≠ plotName i := by
  intro r hr hpid
  rw [stage3] at hr
  obtain ⟨j, hjm, hje⟩ := List.mem_filterMap.mp hr
  dsimp only at hje
  by_cases hs : colSeries cleaned (j - 1) = []
  · rw [if_pos hs] at hje
    exact Option.noConfusion hje
  · rw [if_neg hs] at hje
    by_cases hf : retained enableIqr (colSeries cleaned (j - 1)) = []
    · rw [if_pos hf] at hje
      exact Option.noConfusion hje
    · rw [if_neg hf] at hje
      injection hje with hje
      have hj : plotName j = plotName i := by
        rw [← hje] at hpid
        exact hpid
      rw [plotName_injective hj] at hf
      exact hf hret

/-- C6 witness: a column with no values is skipped by the engine (with the
filter off its retained series equals the — empty — series). -/
theorem C6_empty_plot_no_record_witness :
    retained false (colSeries [[none]] (1 - 1)) = []
  ∧ ∀ r ∈ stage3 false [[none]] 1, r.plotId ≠ plotName 1 :=
  ⟨by decide, C6_empty_plot_no_record false [[none]] 1 1 (by decide)⟩

theorem map_const_replicate {α β : Type} (l : List α) (b : β) :
    (l.map fun _ => b) = List.replicate l.length b := List.map_const' l b

theorem normalizeColumn_branches {α : Type} [LinearOrderedField α]
    (col : List (Option α)) (mn mx : α) (v : α) (vs : List α)
    (hval : col.filterMap id = v :: vs) (hmn : mn ∈ col.filterMap id)
    (hlo : ∀ x ∈ col.filterMap id, mn ≤ x) (hmx : mx ∈ col.filterMap id)
    (hhi : ∀ x ∈ col.filterMap id, x ≤ mx) :
    (mn ≠ mx → normalizeColumn col = col.map (Option.map fun x => (x - mn) / (mx - mn)))
  ∧ (mn = mx → normalizeColumn col = List.replicate col.length (some 0)) := by
  have hminEq : vs.foldl min v = mn := by
    apply le_antisymm
    · have hm : mn ∈ v :: vs := by rw [← hval]; exact hmn
      rcases List.mem_cons.mp hm with rfl | hmm
      · exact foldl_min_le_init vs mn
      · exact foldl_min_le_mem vs v mn hmm
    · apply hlo
      rw [hval]
      exact foldl_min_mem vs v
  have hmaxEq : vs.foldl max v = mx := by
    apply le_antisymm
    · apply hhi
      rw [hval]
      exact foldl_max_mem vs v
    · have hm : mx ∈ v :: vs := by rw [← hval]; exact hmx
      rcases List.mem_cons.mp hm with rfl | hmm
      · exact le_foldl_max_init vs mx
      · exact le_foldl_max_mem vs v mx hmm
  constructor
  · intro hne
    have hne' : ¬ vs.foldl min v = vs.foldl max v := by
      rw [hminEq, hmaxEq]
      exact hne
    simp only [normalizeColumn, hval]
    rw [if_neg hne', hminEq, hmaxEq]
  · intro heq
    have heq' : vs.foldl min v = vs.foldl max v := by
      rw [hminEq, hmaxEq]
      exact heq
    simp only [normalizeColumn, hval]
    rw [if_pos heq', map_const_replicate]

/-- C7: for each target column that holds at least one numeric value: when the
column's min differs from its max, every numeric value `v` is replaced by
`(v - min) / (max - min)` cell-wise; when min equals max, every cell of the
column is replaced by `0`; and the Normalizer never drops rows (the normalized
table has exactly as many rows as the statistics table). -/
theorem C7_normalizer (rows : List StatsRow) (col : List (Option ℚ)) (mn mx : ℚ)
    (hmn : mn ∈ col.filterMap id) (hmx : mx ∈ col.filterMap id)
    (hlo : ∀ x ∈ col.filterMap id, mn ≤ x) (hhi : ∀ x ∈ col.filterMap id, x ≤ mx) :
    (stage4 rows).length = rows.length
  ∧ (mn ≠ mx → normalizeColumn col = col.map (Option.map fun x => (x - mn) / (mx - mn)))
  ∧ (mn = mx → normalizeColumn col = List.replicate col.length (some 0)) := by
  obtain ⟨v, vs, hval⟩ : ∃ v vs, col.filterMap id = v :: vs := by
    cases hcase : col.filterMap id with
    | nil => rw [hcase] at hmn; exact absurd hmn (List.not_mem_nil mn)
    | cons v vs => exact ⟨v, vs, rfl⟩
  obtain ⟨h1, h2⟩ := normalizeColumn_branches col mn mx v vs hval hmn hlo hmx hhi
  refine ⟨?_, h1, h2⟩
  simp [stage4]

/-- C7 witness: the column `[2, 8, NaN]` has min `2`, max `8`; the theorem
instantiated there. -/
theorem C7_normalizer_witness :
    ((2 : ℚ) ∈ ([some 2, some 8, none] : List (Option ℚ)).filterMap id
      ∧ (8 : ℚ) ∈ ([some 2, some 8, none] : List (Option ℚ)).filterMap id
      ∧ (∀ x ∈ ([some 2, some 8, none] : List (Option ℚ)).filterMap id, (2 : ℚ) ≤ x)
      ∧ (∀ x ∈ ([some 2, some 8, none] : List (Option ℚ)).filterMap id, x ≤ (8 : ℚ)))
  ∧ ((stage4 []).length = ([] : List StatsRow).length
      ∧ ((2 : ℚ) ≠ 8 → normalizeColumn ([some 2, some 8, none] : List (Option ℚ)) =
          ([some 2, some 8, none] : List (Option ℚ)).map
            (Option.map fun x => (x - 2) / (8 - 2)))
      ∧ ((2 : ℚ) = 8 → normalizeColumn ([some 2, some 8, none] : List (Option ℚ)) =
          List.replicate ([some 2, some 8, none] : List (Option ℚ)).length (some 0))) :=
  ⟨⟨by decide, by decide, by decide, by decide⟩,
    C7_normalizer [] [some 2, some 8, none] 2 8 (by decide) (by decide)
      (by decide) (by decide)⟩

/-- C10 (implicit): `NaN` cells take no part in the min/max of a target
column; when min ≠ max they stay `NaN` after normalization, but when min = max
every cell of the column — `NaN` cells included — becomes `0`.  Whether an
undefined statistic surfaces as `NaN` or as `0` therefore depends on the values
of the other plots. -/
theorem C10_nan_cells (col : List (Option ℚ)) (mn mx : ℚ)
    (hmn : mn ∈ col.filterMap id) (hmx : mx ∈ col.filterMap id)
    (hlo : ∀ x ∈ col.filterMap id, mn ≤ x) (hhi : ∀ x ∈ col.filterMap id, x ≤ mx) :
    (mn ≠ mx → ∀ l, col.get? l = some none → (normalizeColumn col).get? l = some none)
  ∧ (mn = mx → ∀ l, l < col.length → (normalizeColumn col).get? l = some (some 0)) := by
  obtain ⟨v, vs, hval⟩ : ∃ v vs, col.filterMap id = v :: vs := by
    cases hcase : col.filterMap id with
    | nil => rw [hcase] at hmn; exact absurd hmn (List.not_mem_nil mn)
    | cons v vs => exact ⟨v, vs, rfl⟩
  obtain ⟨h1, h2⟩ := normalizeColumn_branches col mn mx v vs hval hmn hlo hmx hhi
  constructor
  · intro hne l hcell
    rw [h1 hne, List.get?_map, hcell]
    rfl
  · intro heq l hl
    rw [h2 heq, List.get?_eq_getElem?, List.getElem?_replicate_of_lt hl]

/-- C10 witness: in the column `[1, 2, NaN]` the `NaN` cell survives
normalization untouched (min `1` ≠ max `2`). -/
theorem C10_nan_cells_witness :
    ((1 : ℚ) ∈ ([some 1, some 2, none] : List (Option ℚ)).filterMap id
      ∧ (2 : ℚ) ∈ ([some 1, some 2, none] : List (Option ℚ)).filterMap id
      ∧ (∀ x ∈ ([some 1, some 2, none] : List (Option ℚ)).filterMap id, (1 : ℚ) ≤ x)
      ∧ (∀ x ∈ ([some 1, some 2, none] : List (Option ℚ)).filterMap id, x ≤ (2 : ℚ)))
  ∧ (((1 : ℚ) ≠ 2 → ∀ l, ([some 1, some 2, none] : List (Option ℚ)).get? l = some none →
        (normalizeColumn ([some 1, some 2, none] : List (Option ℚ))).get? l = some none)
      ∧ ((1 : ℚ) = 2 → ∀ l, l < ([some 1, some 2, none] : List (Option ℚ)).length →
        (normalizeColumn ([some 1, some 2, none] : List (Option ℚ))).get? l = some (some 0))) :=
  ⟨⟨by decide, by decide, by decide, by decide⟩,
    C10_nan_cells [some 1, some 2, none] 1 2 (by decide) (by decide)
      (by decide) (by decide)⟩

/-- C8: when the mandatory `Area` column is missing, `process_pipeline` fails
before any stage runs — it returns `False` and none of the four artifacts is
written. -/
theorem C8_missing_area (inp : Input) (rangeMax : ℕ) (enableIqr : Bool)
    (h : inp.hasArea = false) :
    processPipeline inp rangeMax enableIqr = ⟨.failed, none, none, none, none⟩ := by
  unfold processPipeline runPipeline
  rw [h]
  simp

/-- C8 witness: the concrete area-less input. -/
theorem C8_missing_area_witness :
    (Input.hasArea ⟨false, []⟩ = false)
  ∧ processPipeline ⟨false, []⟩ 3 false = ⟨.failed, none, none, none, none⟩ :=
  ⟨rfl, C8_missing_area ⟨false, []⟩ 3 false rfl⟩

/-- C9, counterexample: the claim says result and artifacts are independent of
the log callback "including a callback that raises".  Every `self.log` call
runs inside the `try`, and the `except` handler's own `self.log` call re-raises,
so an always-raising callback turns a successful run (`True`, four artifacts)
into an escaped exception with no artifacts. -/
theorem C9_callback_counterexample :
    (runPipeline (fun _ => false) ⟨true, [⟨"1-a.jpg", 2⟩]⟩ 3 false).outcome = .raised
  ∧ (runPipeline (fun _ => false) ⟨true, [⟨"1-a.jpg", 2⟩]⟩ 3 false).art1 = none
  ∧ (runPipeline (fun _ => true) ⟨true, [⟨"1-a.jpg", 2⟩]⟩ 3 false).outcome = .ok
  ∧ (runPipeline (fun _ => true) ⟨true, [⟨"1-a.jpg", 2⟩]⟩ 3 false).art1 =
      some (stage1 [⟨"1-a.jpg", 2⟩] 3) := by
  refine ⟨rfl, rfl, rfl, rfl⟩

/-- C9 (amended): the pipeline result and all four artifacts are independent of
the log callback as long as the callback never raises; a raising callback
aborts the run at the raise point (the error handler re-raises), leaving only
the artifacts written before it. -/
theorem C9_log_independent (c : LogMsg → Bool) (hc : ∀ m, c m = true)
    (inp : Input) (rangeMax : ℕ) (enableIqr : Bool) :
    runPipeline c inp rangeMax enableIqr =
      runPipeline (fun _ => true) inp rangeMax enableIqr := by
  unfold runPipeline
  simp [hc]

/-- C9 witness: the amended theorem applied to the never-raising constant
callback. -/
theorem C9_log_independent_witness :
    runPipeline (fun _ => true) ⟨true, []⟩ 2 false =
      runPipeline (fun _ => true) ⟨true, []⟩ 2 false :=
  C9_log_independent (fun _ => true) (fun _ => rfl) ⟨true, []⟩ 2 false

end Pheno

